import Mathlib

/-!
# Verification of the disposable-email-domains matching-and-validation engine

Shallow embedding of the core of the repository:

* the SMTP deliverability client (`src/client/smtp.ts`): the per-server
  handshake state machine `testSmtpConnection` and the per-email driver
  `validateEmail`;
* the DNS resolution engine (`dns-resolver`): `validateDomain`,
  `resolveMxWithRetry` with exponential backoff, the TTL cache
  (`getCachedResult` / `setCachedResult`) and the concurrency gate
  (`executeWithConcurrencyControl`);
* the orchestrator (`src/client/disposable-email-checker.ts`):
  `performEmailCheck`, `checkEmail` and `checkEmailsBatch`, together with
  the format validator `validateEmailFormat` and `parseEmail` from the
  email-validator module.

Network and timer effects are made explicit: a socket is a list of server
events, DNS resolution outcomes are `Except` values supplied per attempt,
and wall-clock instants are `Nat` parameters.  Regular expressions and the
components that live outside the provided sources are abstracted as
function parameters and documented at their definition sites.
-/

namespace DisposableEmail

/-! ## JavaScript-style primitives -/

/-- The characters of a string; all JS string operations below are
modelled on the character list (one `Char` per UTF-16 unit for the ASCII
data handled here). -/
def jsChars (s : String) : List Char := s.toList

/-- The number of characters (JS `length` on ASCII data). -/
def jsLength (s : String) : Nat := (jsChars s).length

/-- JS `s.substring(0, n)` / `s.slice(0, n)`. -/
def jsTake (s : String) (n : Nat) : String := String.mk ((jsChars s).take n)

/-- JS `String.prototype.trim`: strip whitespace from both ends. -/
def jsTrim (s : String) : String :=
  String.mk ((((jsChars s).dropWhile Char.isWhitespace).reverse.dropWhile
    Char.isWhitespace).reverse)

/-- JS `String.prototype.toLowerCase` on ASCII data. -/
def jsToLower (s : String) : String :=
  String.mk ((jsChars s).map Char.toLower)

/-- JS `String.prototype.split` with a one-character separator:
`splitCharAux c pending rest` accumulates the current segment (reversed)
while walking the remaining characters. -/
def splitCharAux (c : Char) : List Char → List Char → List String
  | acc, [] => [String.mk acc.reverse]
  | acc, x :: xs =>
    if x = c then String.mk acc.reverse :: splitCharAux c [] xs
    else splitCharAux c (x :: acc) xs

/-- JS `s.split(c)` for a one-character separator (`"".split` yields
`[""]`, like JS). -/
def jsSplit (c : Char) (s : String) : List String :=
  splitCharAux c [] (jsChars s)

/-- JS `parseInt` on a short string: parses the leading run of decimal
digits; `none` models `NaN` (no leading digit).  SMTP reply strings start
with their three-digit code, so sign/whitespace handling of `parseInt` is
not modelled. -/
def jsParseIntHead (s : String) : Option Nat :=
  let digits := (jsChars s).takeWhile (fun c => c.isDigit)
  if digits.isEmpty then none
  else some (digits.foldl (fun n c => n * 10 + (c.toNat - 48)) 0)

/-- JS truthiness of an optional string: `undefined` and `""` are falsy. -/
def jsFalsyStr : Option String → Bool
  | none => true
  | some s => s == ""

/-- JS `a || b` where `a` is an optional string (`undefined`/`""` fall back). -/
def jsOrString (a : Option String) (b : String) : String :=
  match a with
  | some s => if s == "" then b else s
  | none => b

/-- JS `a || b` on an optional number (`undefined`/`0` fall back). -/
def jsOrNat (a : Option Nat) (b : Nat) : Nat :=
  match a with
  | some n => if n == 0 then b else n
  | none => b

/-- JS `email.toLowerCase().trim()` as used by the orchestrator. -/
def jsNormalize (email : String) : String :=
  jsTrim (jsToLower email)

/-! ## SMTP deliverability engine (`src/client/smtp.ts`) -/

/-- One mail exchanger (`MxRecord` of `types.ts`): hostname and priority. -/
structure MxRecord where
  exchange : String
  priority : Nat
deriving DecidableEq, Repr

/-- An event delivered to the socket of one SMTP connection attempt.
`data raw` is a `data` event carrying the raw server reply; `socketError`
is an `error` event; `close` is a `close` event.  The end of the event
list with the dialogue unfinished models the per-attempt timeout timer
firing (nothing else resolves the promise). -/
inductive ServerEvent where
  | data (raw : String)
  | socketError (msg : String)
  | close
deriving DecidableEq, Repr

/-- Internal result of one SMTP connection attempt
(`SmtpConnectionResult` in `smtp.ts`).  Fields that a resolution path
leaves out of its object literal are `none`. -/
structure SmtpConnectionResult where
  isValid : Bool
  isDeliverable : Bool
  mxRecord : Option String
  responseCode : Option Nat
  responseMessage : Option String
  error : Option String
deriving DecidableEq, Repr

/-- The SMTP reply code of a `data` event: the source trims the buffer and
applies `parseInt` to its first three characters (`smtp.ts:150-151`). -/
def respCode (raw : String) : Option Nat :=
  jsParseIntHead (jsTake (jsTrim raw) 3)

/-- The `data`/`error`/`close` handlers of `testSmtpConnection`
(`smtp.ts:149-238`) as a recursion over the server's events.  `step` is
the mutable `step` counter, `isDeliverable` the flag set at the RCPT
stage (`smtp.ts:185`).  The mutable `responseCode`/`responseMessage`
variables are not threaded through: every resolution that reads them does
so right after they were updated from the current event. -/
def smtpGo (server : String) : List ServerEvent → Nat → Bool → SmtpConnectionResult
  | [], _, _ =>
    ⟨false, false, none, none, none, some "Connection timeout"⟩
  | .data raw :: rest, step, isDeliverable =>
    let response := jsTrim raw
    let code := respCode raw
    match step with
    | 0 =>
      if code = some 220 then smtpGo server rest 1 isDeliverable
      else ⟨false, false, none, code, some response,
            some ("Unexpected greeting: " ++ response)⟩
    | 1 =>
      if code = some 250 then smtpGo server rest 2 isDeliverable
      else ⟨false, false, none, code, some response,
            some ("HELO failed: " ++ response)⟩
    | 2 =>
      if code = some 250 then smtpGo server rest 3 isDeliverable
      else ⟨false, false, none, code, some response,
            some ("MAIL FROM failed: " ++ response)⟩
    | 3 =>
      smtpGo server rest 4 (code = some 250)
    | 4 =>
      ⟨true, isDeliverable, some server, code, some response, none⟩
    | _ => smtpGo server rest step isDeliverable
  | .socketError msg :: _, _, _ =>
    ⟨false, false, none, none, none, some ("Connection failed: " ++ msg)⟩
  | .close :: rest, step, isDeliverable =>
    if step < 4 then
      ⟨false, false, none, none, none, some "Connection closed unexpectedly"⟩
    else smtpGo server rest step isDeliverable

/-- `SmtpValidator.testSmtpConnection` (`smtp.ts:122-243`): runs the
handshake state machine over the server's event script.  The commands the
client writes (`HELO`, `MAIL FROM`, `RCPT TO`, `QUIT`) only influence the
server, whose replies are already fixed by `events`, so the email and the
configured `helo`/`fromEmail` do not appear in the transition function. -/
def testSmtpConnection (server : String) (_email : String)
    (events : List ServerEvent) : SmtpConnectionResult :=
  smtpGo server events 0 false

/-- Outcome of `SmtpValidator.validateEmail` (`SmtpValidationResult` of
`types.ts`); the wall-clock `validationTime` field is omitted. -/
structure SmtpValidationResult where
  email : String
  domain : String
  isValid : Bool
  isMailboxValid : Bool
  mxRecord : Option String
  responseCode : Option Nat
  responseMessage : Option String
  errors : List String
  warnings : List String
deriving DecidableEq, Repr

/-- `email.split("@")[0]`. -/
def splitLocal (email : String) : Option String :=
  (jsSplit '@' email).get? 0

/-- `email.split("@")[1]`. -/
def splitDomain (email : String) : Option String :=
  (jsSplit '@' email).get? 1

/-- The candidate server list of `validateEmail`
(`smtp.ts:88`): `mxRecords?.map((mx) => mx.exchange) || [domain]`.  A
supplied list (even an empty one — an empty array is truthy) is used in
the given order; only an absent list falls back to the bare domain. -/
def serversOf (mxRecords : Option (List MxRecord)) (domain : String) : List String :=
  match mxRecords with
  | some l => l.map (fun mx => mx.exchange)
  | none => [domain]

/-- The `for (const server of servers)` loop of `validateEmail`
(`smtp.ts:91-110`).  On a connection result with `isValid` the loop
records the fields and breaks; note `smtp.ts:97` assigns
`result.isMailboxValid = validationResult.isValid` (not
`validationResult.isDeliverable`).  On failure it pushes one warning and
moves to the next server.  `testSmtpConnection` always resolves (never
rejects), so the `catch` branch pushing to `errors` is unreachable. -/
def smtpTryServers (email : String) (net : String → List ServerEvent) :
    List String → SmtpValidationResult → SmtpValidationResult
  | [], result => result
  | server :: rest, result =>
    let vr := testSmtpConnection server email (net server)
    if vr.isValid then
      { result with
        isValid := true
        isMailboxValid := vr.isValid
        mxRecord := vr.mxRecord
        responseCode := vr.responseCode
        responseMessage := vr.responseMessage }
    else
      smtpTryServers email net rest
        { result with
          warnings := result.warnings ++
            [jsOrString vr.error "Unable to verify mailbox via SMTP"] }

/-- The freshly initialised result object of `validateEmail` (`smtp.ts:64-75`). -/
def smtpBaseResult (email : String) : SmtpValidationResult :=
  { email := email
    domain := ""
    isValid := false
    isMailboxValid := false
    mxRecord := none
    responseCode := none
    responseMessage := none
    errors := []
    warnings := [] }

/-- `SmtpValidator.validateEmail` (`smtp.ts:62-114`).  `net` gives, per
candidate hostname, the event script of a connection to it. -/
def validateEmail (email : String) (mxRecords : Option (List MxRecord))
    (net : String → List ServerEvent) : SmtpValidationResult :=
  if jsFalsyStr (splitLocal email) || jsFalsyStr (splitDomain email) then
    { smtpBaseResult email with errors := ["Invalid email format"] }
  else
    let domain := (splitDomain email).getD ""
    smtpTryServers email net (serversOf mxRecords domain)
      { smtpBaseResult email with domain := domain }

/-! ## DNS resolution engine (`dns-resolver`) -/

/-- Outcome of `DnsResolver.validateDomain` (`DnsValidationResult`); the
wall-clock `validationTime` field is omitted. -/
structure DnsValidationResult where
  domain : String
  hasMx : Bool
  mxRecords : List MxRecord
  hasSpf : Bool
  hasDmarc : Bool
  isConnectable : Bool
  errors : List String
  warnings : List String
deriving DecidableEq, Repr

/-- The configuration fields of `DnsResolverConfig` that the modelled
operations read. -/
structure DnsResolverCfg where
  retries : Nat
  cacheSize : Nat
  cacheTtl : Nat
  validateMxConnectivity : Bool
  checkSpfRecord : Bool
  checkDmarcRecord : Bool
deriving DecidableEq, Repr

/-- The exponential-backoff delay before the retry after failed attempt
number `attempt` (`dns-resolver` line 306):
`Math.min(1000 * Math.pow(2, attempt - 1), 5000)`. -/
def backoffDelay (attempt : Nat) : Nat :=
  min (1000 * 2 ^ (attempt - 1)) 5000

deriving instance DecidableEq for Except

/-- Trace of one `resolveMxWithRetry` call: its outcome, the number of
resolution attempts actually made, and the backoff delays awaited, in
order (one after each failed attempt except the last). -/
structure RetryTrace where
  outcome : Except String (List MxRecord)
  attempts : Nat
  delays : List Nat
deriving DecidableEq, Repr

/-- The `for (let attempt = 1; attempt <= retries; attempt++)` loop of
`resolveMxWithRetry` (`dns-resolver` lines 287-313).  `oracle a` is the
outcome of attempt number `a` (resolution racing the per-attempt
timeout: a timeout is an `Except.error "DNS timeout"`).  `remaining` is
the fuel `retries - attempt + 1`; `lastErr` the `lastError` variable. -/
def resolveMxGo (oracle : Nat → Except String (List MxRecord)) (retries : Nat) :
    Nat → Nat → Option String → RetryTrace
  | 0, _, lastErr =>
    ⟨.error (lastErr.getD "MX resolution failed"), 0, []⟩
  | remaining + 1, attempt, _ =>
    match oracle attempt with
    | .ok records => ⟨.ok records, 1, []⟩
    | .error e =>
      if attempt < retries then
        let rest := resolveMxGo oracle retries remaining (attempt + 1) (some e)
        ⟨rest.outcome, rest.attempts + 1, backoffDelay attempt :: rest.delays⟩
      else ⟨.error e, 1, []⟩

/-- `DnsResolver.resolveMxWithRetry` (`dns-resolver` lines 287-314),
started at attempt 1 with no `lastError`.  When `retries = 0` the loop
body never runs and the function throws `"MX resolution failed"`. -/
def resolveMxWithRetry (oracle : Nat → Except String (List MxRecord))
    (retries : Nat) : RetryTrace :=
  resolveMxGo oracle retries retries 1 none

/-- JS stable `Array.prototype.sort((a, b) => a.priority - b.priority)`
over MX records (`dns-resolver` line 118). -/
def sortInsert (r : MxRecord) : List MxRecord → List MxRecord
  | [] => [r]
  | x :: xs =>
    if r.priority ≤ x.priority then r :: x :: xs else x :: sortInsert r xs

def sortByPriority (records : List MxRecord) : List MxRecord :=
  records.foldr sortInsert []

/-- The freshly initialised result object of `validateDomain`
(`dns-resolver` lines 95-105). -/
def dnsBaseResult (domain : String) : DnsValidationResult :=
  { domain := domain
    hasMx := false
    mxRecords := []
    hasSpf := false
    hasDmarc := false
    isConnectable := false
    errors := []
    warnings := [] }

/-- `DnsResolver.validateDomain` (`dns-resolver` lines 93-151).
`mxOutcome` is the outcome of `resolveMxWithRetry` (a thrown error lands
in the `catch` which records one error and skips the SPF/DMARC checks).
`connOracle` models `validateMxConnectivity` (which absorbs every socket
error into `false`); `spfOracle`/`dmarcOracle` model
`checkSpfRecord`/`checkDmarcRecord` (which likewise return `false` on any
lookup error, so they never throw). -/
def validateDomain (cfg : DnsResolverCfg) (domain : String)
    (mxOutcome : Except String (List MxRecord))
    (connOracle : List MxRecord → Bool) (spfOracle dmarcOracle : Bool) :
    DnsValidationResult :=
  match mxOutcome with
  | .error e =>
    { dnsBaseResult domain with errors := ["DNS resolution failed: " ++ e] }
  | .ok records =>
    let r1 :=
      if records.length > 0 then
        let sorted := sortByPriority records
        { dnsBaseResult domain with
          hasMx := true
          mxRecords := sorted
          isConnectable :=
            if cfg.validateMxConnectivity then connOracle sorted else false }
      else
        { dnsBaseResult domain with warnings := ["No MX records found"] }
    let r2 :=
      if cfg.checkSpfRecord then
        { r1 with
          hasSpf := spfOracle
          warnings := r1.warnings ++
            (if spfOracle then [] else ["No SPF record found"]) }
      else r1
    if cfg.checkDmarcRecord then
      { r2 with
        hasDmarc := dmarcOracle
        warnings := r2.warnings ++
          (if dmarcOracle then [] else ["No DMARC record found"]) }
    else r2

/-! ## TTL cache of the DNS engine (`getCachedResult` / `setCachedResult`)

A JS `Map` is modelled as an association list in insertion order with
unique keys: `Map.set` of a present key updates its value in place,
otherwise appends; `Map.keys().next().value` is the head key. -/

/-- JS `Map.prototype.get` on the association-list model. -/
def mapGet {α : Type} (m : List (String × α)) (k : String) : Option α :=
  (m.find? (fun p => p.1 == k)).map (fun p => p.2)

/-- JS `Map.prototype.set` on the association-list model. -/
def mapSet {α : Type} (m : List (String × α)) (k : String) (v : α) :
    List (String × α) :=
  if m.any (fun p => p.1 == k) then
    m.map (fun p => if p.1 == k then (k, v) else p)
  else m ++ [(k, v)]

/-- JS `Map.prototype.delete` on the association-list model. -/
def mapDelete {α : Type} (m : List (String × α)) (k : String) :
    List (String × α) :=
  m.filter (fun p => p.1 != k)

/-- One entry of the DNS cache (`DnsCache`): value, insertion timestamp,
and TTL in milliseconds.  The value type is generic because the source
stores `any` (full results under `mx:` keys, booleans under `simple-mx:`). -/
structure CacheEntry (α : Type) where
  result : α
  timestamp : Nat
  ttl : Nat
deriving DecidableEq, Repr

/-- `DnsResolver.getCachedResult` (`dns-resolver` lines 413-424) at
wall-clock instant `now`: returns the cached value when
`now - timestamp < ttl`, otherwise deletes the stale entry and returns
`undefined`.  The pair is (returned value, cache after the read). -/
def getCachedResult {α : Type} (cache : List (String × CacheEntry α))
    (key : String) (now : Nat) : Option α × List (String × CacheEntry α) :=
  match mapGet cache key with
  | some cached =>
    if now - cached.timestamp < cached.ttl then (some cached.result, cache)
    else (none, mapDelete cache key)
  | none => (none, cache)

/-- `DnsResolver.setCachedResult` (`dns-resolver` lines 429-443) at
instant `now`.  When the cache is at capacity the oldest-inserted key is
evicted first (`if (oldestKey)`: an empty-string key is falsy and skips
the delete).  The stored TTL is `ttl || cacheTtl`. -/
def setCachedResult {α : Type} (cfg : DnsResolverCfg)
    (cache : List (String × CacheEntry α)) (key : String) (result : α)
    (now : Nat) (ttl : Option Nat) : List (String × CacheEntry α) :=
  let cache1 :=
    if cache.length ≥ cfg.cacheSize then
      match cache with
      | [] => ([] : List (String × CacheEntry α))
      | (k0, e0) :: rest => if k0 == "" then (k0, e0) :: rest else rest
    else cache
  mapSet cache1 key ⟨result, now, jsOrNat ttl cfg.cacheTtl⟩

/-! ## Concurrency gate (`executeWithConcurrencyControl`)

The gate of `dns-resolver` lines 380-408 as a state machine.  JavaScript
runs each handler to completion, so submissions and completions are
atomic steps.  A task admitted directly runs under the
`activeRequests++ / try / finally` bookkeeping; a task started by the
`setImmediate(() => nextRequest())` drain runs the queued closure, which
calls `operation()` without touching `activeRequests` or the queue. -/

/-- State of one `DnsResolver`'s gate: the `activeRequests` counter, the
FIFO `requestQueue` (task ids), the tasks currently executing via the
direct path, the tasks currently executing via a queue drain, and the
tasks whose promise has settled. -/
structure GateState where
  active : Nat
  queue : List Nat
  runningAdmitted : List Nat
  runningDequeued : List Nat
  settled : List Nat
deriving DecidableEq, Repr

/-- The gate before any submission. -/
def gateInit : GateState :=
  { active := 0, queue := [], runningAdmitted := [], runningDequeued := [],
    settled := [] }

/-- A call to `executeWithConcurrencyControl` (`dns-resolver` lines
380-395) with `maxConcurrent = k`: if `activeRequests >= concurrency` the
task is pushed on the FIFO queue, otherwise the counter is incremented
and the operation starts immediately. -/
def gateSubmit (k : Nat) (s : GateState) (t : Nat) : GateState :=
  if s.active ≥ k then { s with queue := s.queue ++ [t] }
  else { s with active := s.active + 1,
                runningAdmitted := s.runningAdmitted ++ [t] }

/-- Completion of a directly admitted task (`dns-resolver` lines
396-407): its promise settles, the `finally` block decrements
`activeRequests` and, if the queue is non-empty, shifts its head and
starts it via `setImmediate` — the started closure runs outside the
counter bookkeeping, so it lands in `runningDequeued`. -/
def gateCompleteAdmitted (s : GateState) (t : Nat) : GateState :=
  let s1 := { s with
    runningAdmitted := s.runningAdmitted.erase t
    settled := s.settled ++ [t]
    active := s.active - 1 }
  match s1.queue with
  | [] => s1
  | q :: rest =>
    { s1 with queue := rest, runningDequeued := s1.runningDequeued ++ [q] }

/-- Completion of a task started by the queue drain (`dns-resolver` lines
384-391): the queued closure resolves or rejects the promise and returns —
it neither decrements `activeRequests` (it never incremented it) nor
shifts the next queued request. -/
def gateCompleteDequeued (s : GateState) (t : Nat) : GateState :=
  { s with runningDequeued := s.runningDequeued.erase t,
           settled := s.settled ++ [t] }

/-! ## Orchestrator (`src/client/disposable-email-checker.ts`) -/

/-- Classification provenance (`matchType`). -/
inductive MatchType where
  | exact
  | subdomain
  | pattern
  | noMatch
deriving DecidableEq, Repr

/-- Result of one `DomainChecker` lookup.
Modelled from the spec: `domain-checker.ts` is not among the provided
sources; per §4.1 a lookup yields `{isMatch, matchType, confidence}` (the
disposable lookup also reports a `source`). -/
structure DomainMatch where
  isMatch : Bool
  matchType : MatchType
  confidence : Nat
  source : Option String
deriving DecidableEq, Repr

/-- Result of `EmailValidator.analyzePatterns` as consumed by the
orchestrator: a suspicion score (capped at 100 by the source) and
warnings. -/
structure PatternCheck where
  suspiciousScore : Nat
  warnings : List String
deriving DecidableEq, Repr

/-- The `dnsValidation` sub-record the orchestrator attaches to its
result (`disposable-email-checker.ts` lines 481-488); the wall-clock
`dnsValidationTime` field is omitted. -/
structure DnsSubResult where
  hasMx : Bool
  mxRecords : List MxRecord
  hasSpf : Bool
  hasDmarc : Bool
  isConnectable : Bool
deriving DecidableEq, Repr

/-- The `smtpValidation` sub-record (`disposable-email-checker.ts` lines
530-537); the wall-clock `smtpValidationTime` field is omitted. -/
structure SmtpSubResult where
  isValid : Bool
  isDeliverable : Bool
  responseCode : Option Nat
  responseMessage : Option String
  serverTested : Option String
deriving DecidableEq, Repr

/-- The aggregated answer (`EmailValidationResult` of `types.ts`); the
wall-clock `validationTime` field is omitted. -/
structure EmailValidationResult where
  email : String
  isValid : Bool
  isDisposable : Bool
  isAllowed : Bool
  isBlacklisted : Bool
  domain : String
  localPart : String
  matchType : MatchType
  confidence : Nat
  errors : List String
  warnings : List String
  source : Option String
  dnsValidation : Option DnsSubResult
  smtpValidation : Option SmtpSubResult
deriving DecidableEq, Repr

/-- `getPooledResult` (`disposable-email-checker.ts` lines 31-64):
`returnToPool` is never called anywhere in the source, so the pool stays
empty and every call returns this fresh object (in particular
`dnsValidation`/`smtpValidation` are absent). -/
def emptyResult : EmailValidationResult :=
  { email := ""
    isValid := false
    isDisposable := false
    isAllowed := false
    isBlacklisted := false
    domain := ""
    localPart := ""
    matchType := .noMatch
    confidence := 0
    errors := []
    warnings := []
    source := none
    dnsValidation := none
    smtpValidation := none }

/-- The orchestrator configuration fields the modelled pipeline reads
(`EmailCheckerConfig` plus the DNS sub-config flags that decide between
full and simple DNS validation). -/
structure OrchestratorCfg where
  enableCaching : Bool
  checkMxRecord : Bool
  checkSmtpDeliverability : Bool
  enablePatternMatching : Bool
  dnsValidateMxConnectivity : Bool
  dnsCheckSpfRecord : Bool
  dnsCheckDmarcRecord : Bool
deriving DecidableEq, Repr

/-- The collaborators `performEmailCheck` consults.  `quickPattern` and
`formatRegex` abstract the compiled regular expressions (`EMAIL_PATTERN`
and `EMAIL_REGEX`/`STRICT_EMAIL_REGEX`); `allowlist`, `checkBlacklist`
and `checkDisposable` stand for the `DomainChecker` (whose source file is
not provided — modelled from the spec, §4.1/§4.6); `analyzePatterns`
abstracts the regex-driven heuristics of `EmailValidator.analyzePatterns`;
`dnsAdvanced`, `checkMx` and `smtpValidate` are the DNS and SMTP engines
with their network effects fixed. -/
structure CheckerEnv where
  quickPattern : String → Bool
  formatRegex : String → Bool
  allowlist : List String
  checkBlacklist : String → DomainMatch
  checkDisposable : String → DomainMatch
  customPatterns : List String
  analyzePatterns : String → String → String → List String → PatternCheck
  dnsAdvanced : String → DnsValidationResult
  checkMx : String → Bool
  smtpValidate : String → Option (List MxRecord) → SmtpValidationResult

/-- Modelled from the spec: `DomainChecker.checkAllowlist` lives in the
missing `domain-checker.ts`; §4.6 step 3 specifies an allowlist *exact*
match via the `DomainIndex`, so it is exact membership of the (already
normalized) domain in the allowlist set. -/
def checkAllowlist (env : CheckerEnv) (domain : String) : Bool :=
  env.allowlist.contains domain

/-- `EmailValidator.validateEmailFormat` (email-validator module): `some
message` is the error pushed on failure, `none` means the format passed.
The final regex test is the abstracted `formatRegex`. -/
def validateEmailFormat (formatRegex : String → Bool) (email : String) :
    Option String :=
  if jsLength email > 254 then
    some "Email address too long (max 254 characters)"
  else
    match (jsChars email).findIdx? (fun c => c == '@') with
    | none => some "Invalid email format - missing or misplaced @ symbol"
    | some atIndex =>
      if atIndex = 0 ∨ atIndex = jsLength email - 1 then
        some "Invalid email format - missing or misplaced @ symbol"
      else if ((jsChars email).drop (atIndex + 1)).contains '@' then
        some "Invalid email format - multiple @ symbols"
      else if atIndex > 64 then
        some "Local part too long (max 64 characters)"
      else if jsLength email - (atIndex + 1) > 253 then
        some "Domain too long (max 253 characters)"
      else if formatRegex email then none
      else some "Invalid email format"

/-- `EmailValidator.parseEmail`: `(email.slice(0, atIndex),
email.slice(atIndex + 1).toLowerCase())`.  The `indexOf = -1` branch
(`slice(0, -1)` / `slice(0)`) is unreachable after format validation but
modelled as JS computes it. -/
def parseEmail (email : String) : String × String :=
  match (jsChars email).findIdx? (fun c => c == '@') with
  | some atIndex =>
    (String.mk ((jsChars email).take atIndex),
     jsToLower (String.mk ((jsChars email).drop (atIndex + 1))))
  | none =>
    (String.mk ((jsChars email).take (jsLength email - 1)), jsToLower email)

/-- Steps 7 and 8 state: the optional DNS result reused by SMTP. -/
def dnsStage (env : CheckerEnv) (cfg : OrchestratorCfg) (domain : String)
    (r : EmailValidationResult) :
    EmailValidationResult × Option DnsValidationResult :=
  if cfg.checkMxRecord then
    if cfg.dnsValidateMxConnectivity || cfg.dnsCheckSpfRecord ||
        cfg.dnsCheckDmarcRecord then
      let dr := env.dnsAdvanced domain
      let sub : DnsSubResult :=
        { hasMx := dr.hasMx, mxRecords := dr.mxRecords, hasSpf := dr.hasSpf,
          hasDmarc := dr.hasDmarc, isConnectable := dr.isConnectable }
      let r1 := { r with dnsValidation := some sub }
      let r2 :=
        if dr.hasMx then r1
        else { r1 with
          warnings := r1.warnings ++ ["No MX record found for domain"]
          confidence := max r1.confidence 60 }
      let r3 := { r2 with warnings := r2.warnings ++ dr.warnings }
      let r4 :=
        if dr.errors.length > 0 then
          { r3 with warnings := r3.warnings ++ ["DNS validation encountered errors"] }
        else r3
      (r4, some dr)
    else
      let hasMx := env.checkMx domain
      (if hasMx then r
       else { r with
         warnings := r.warnings ++ ["No MX record found for domain"]
         confidence := max r.confidence 60 }, none)
  else (r, none)

/-- Step 8 of `performEmailCheck` (`disposable-email-checker.ts` lines
515-553). -/
def smtpStage (env : CheckerEnv) (cfg : OrchestratorCfg) (email : String)
    (dnsResult : Option DnsValidationResult) (r : EmailValidationResult) :
    EmailValidationResult :=
  if cfg.checkSmtpDeliverability then
    let smtpResult :=
      match dnsResult with
      | some dr =>
        if dr.hasMx && dr.mxRecords.length > 0 then
          env.smtpValidate email (some dr.mxRecords)
        else env.smtpValidate email none
      | none => env.smtpValidate email none
    let sub : SmtpSubResult :=
      { isValid := smtpResult.isValid
        isDeliverable := smtpResult.isMailboxValid
        responseCode := smtpResult.responseCode
        responseMessage := smtpResult.responseMessage
        serverTested := smtpResult.mxRecord }
    let r1 := { r with smtpValidation := some sub }
    let r2 :=
      if smtpResult.isMailboxValid then r1
      else { r1 with
        warnings := r1.warnings ++
          ["Email address does not appear to be deliverable"]
        confidence := max r1.confidence 70 }
    let r3 := { r2 with warnings := r2.warnings ++ smtpResult.warnings }
    if smtpResult.errors.length > 0 then
      { r3 with warnings := r3.warnings ++ ["SMTP validation encountered errors"] }
    else r3
  else r

/-- `DisposableEmailChecker.performEmailCheck` (`disposable-email-checker.ts`
lines 402-557): format validation, parse, allowlist short-circuit,
blacklist, disposable lookup, pattern heuristics, DNS stage, SMTP stage. -/
def performEmailCheck (env : CheckerEnv) (cfg : OrchestratorCfg)
    (email : String) : EmailValidationResult :=
  let r0 := { emptyResult with email := email }
  match validateEmailFormat env.formatRegex email with
  | some err => { r0 with errors := [err] }
  | none =>
    let parsed := parseEmail email
    let r1 := { r0 with localPart := parsed.1, domain := parsed.2,
                        isValid := true }
    if checkAllowlist env parsed.2 then
      { r1 with isAllowed := true, matchType := .exact, confidence := 100 }
    else
      let bl := env.checkBlacklist parsed.2
      let r2 :=
        if bl.isMatch then
          { r1 with isBlacklisted := true, matchType := bl.matchType,
                    confidence := bl.confidence }
        else r1
      let dp := env.checkDisposable parsed.2
      let r3 :=
        if dp.isMatch then
          { r2 with isDisposable := true, matchType := dp.matchType,
                    confidence := max r2.confidence dp.confidence,
                    source := dp.source }
        else r2
      let r4 :=
        if cfg.enablePatternMatching && env.customPatterns.length > 0 then
          let pr := env.analyzePatterns email parsed.1 parsed.2 env.customPatterns
          if pr.suspiciousScore > 0 then
            let r4a := { r3 with warnings := pr.warnings,
                                 confidence := max r3.confidence pr.suspiciousScore }
            if pr.suspiciousScore ≥ 80 then
              { r4a with isDisposable := true, matchType := .pattern }
            else r4a
          else r3
        else r3
      let staged := dnsStage env cfg parsed.2 r4
      smtpStage env cfg email staged.2 staged.1

/-- The result-cache lookup as `checkEmail`/`checkEmailsBatch` perform it:
`undefined` unless caching is enabled. -/
def cacheHitFor (cfg : OrchestratorCfg)
    (cache : String → Option EmailValidationResult) (email : String) :
    Option EmailValidationResult :=
  if cfg.enableCaching then cache email else none

/-- `DisposableEmailChecker.checkEmail` (`disposable-email-checker.ts`
lines 352-397): normalize, quick `EMAIL_PATTERN` test, result-cache
lookup, then `performEmailCheck`.  `cache` is the result cache's state at
call time; the store-back and the metrics calls do not affect the
returned value.  The surrounding `catch` is unreachable because every
modelled collaborator is total. -/
def checkEmail (env : CheckerEnv) (cfg : OrchestratorCfg)
    (cache : String → Option EmailValidationResult) (email : String) :
    EmailValidationResult :=
  let normalized := jsNormalize email
  if env.quickPattern normalized then
    match cacheHitFor cfg cache normalized with
    | some cached => cached
    | none => performEmailCheck env cfg normalized
  else
    { emptyResult with email := normalized, errors := ["Invalid email format"] }

/-- JS `[...new Set(xs)]`: deduplication keeping first occurrences. -/
def jsDedup (l : List String) : List String :=
  l.foldl (fun acc e => if e ∈ acc then acc else acc ++ [e]) []

/-- The unique normalized emails of a batch that miss the result cache
(`uncachedEmails` in `checkEmailsBatch`). -/
def uncachedEmails (cfg : OrchestratorCfg)
    (cache : String → Option EmailValidationResult) (emails : List String) :
    List String :=
  (jsDedup (emails.map jsNormalize)).filter
    (fun e => (cacheHitFor cfg cache e).isNone)

/-- The `resultMap` after the cache pass of `checkEmailsBatch`
(`disposable-email-checker.ts` lines 583-593): one entry per unique email
found in the cache. -/
def batchBaseMap (cfg : OrchestratorCfg)
    (cache : String → Option EmailValidationResult) (emails : List String) :
    List (String × EmailValidationResult) :=
  (jsDedup (emails.map jsNormalize)).foldl
    (fun m e =>
      match cacheHitFor cfg cache e with
      | some r => mapSet m e r
      | none => m)
    []

/-- `DisposableEmailChecker.checkEmailsBatch` (`disposable-email-checker.ts`
lines 562-622).  The uncached emails are processed through `checkEmail`
in chunks running concurrently; each completion writes
`resultMap.set(email, result)`.  `writeOrder` is the order in which those
writes land — an arbitrary permutation of the uncached emails (the chunk
partition visits each exactly once).  The final loop re-expands
`resultMap` along the normalized inputs; the source's non-null assertion
`resultMap.get(email)!` becomes `getD emptyResult`. -/
def checkEmailsBatch (env : CheckerEnv) (cfg : OrchestratorCfg)
    (cache : String → Option EmailValidationResult) (emails : List String)
    (writeOrder : List String) : List EmailValidationResult :=
  let normalized := emails.map jsNormalize
  let finalMap := writeOrder.foldl
    (fun m e => mapSet m e (checkEmail env cfg cache e))
    (batchBaseMap cfg cache emails)
  normalized.map (fun e => (mapGet finalMap e).getD emptyResult)

/-- The value a batch necessarily associates to one normalized email: the
cached result on a hit, the freshly computed `checkEmail` result
otherwise. -/
def batchResolve (env : CheckerEnv) (cfg : OrchestratorCfg)
    (cache : String → Option EmailValidationResult) (e : String) :
    EmailValidationResult :=
  match cacheHitFor cfg cache e with
  | some r => r
  | none => checkEmail env cfg cache e

/-! ## Concrete fixtures used by the claim theorems and witnesses -/

/-- A server script that completes the whole dialogue but rejects the
RCPT TO command with 550: greeting 220, HELO ack 250, MAIL FROM ack 250,
RCPT TO answer 550, QUIT ack 221. -/
def rcptRejectScript : List ServerEvent :=
  [.data "220 mx ready", .data "250 ok", .data "250 ok",
   .data "550 no such user", .data "221 bye"]

/-- A server script on which every handshake stage succeeds. -/
def allOkScript : List ServerEvent :=
  [.data "220 ready", .data "250 ok", .data "250 ok", .data "250 ok",
   .data "221 bye"]

/-- The gate state after: three tasks submitted synchronously with
`concurrency = 1` (task 1 admitted, tasks 2 and 3 queued), task 1's
operation completing (which drains task 2 from the queue and starts it
outside the counter bookkeeping), and task 2 completing. -/
def gateStuckFinal : GateState :=
  gateCompleteDequeued
    (gateCompleteAdmitted
      (gateSubmit 1 (gateSubmit 1 (gateSubmit 1 gateInit 1) 2) 3) 1) 2

/-- The concrete environment used by the orchestrator witnesses: trivial
regexes, an allowlist holding `good.com`, and inert later-stage
collaborators. -/
def testEnv : CheckerEnv :=
  { quickPattern := fun _ => true
    formatRegex := fun _ => true
    allowlist := ["good.com"]
    checkBlacklist := fun _ => ⟨false, .noMatch, 0, none⟩
    checkDisposable := fun _ => ⟨false, .noMatch, 0, none⟩
    customPatterns := []
    analyzePatterns := fun _ _ _ _ => ⟨0, []⟩
    dnsAdvanced := fun d => dnsBaseResult d
    checkMx := fun _ => true
    smtpValidate := fun e _ => smtpBaseResult e }

/-- The concrete configuration used by the orchestrator witnesses
(caching on, DNS/SMTP probing off — the library defaults). -/
def testCfg : OrchestratorCfg :=
  { enableCaching := true
    checkMxRecord := false
    checkSmtpDeliverability := false
    enablePatternMatching := true
    dnsValidateMxConnectivity := false
    dnsCheckSpfRecord := false
    dnsCheckDmarcRecord := false }

/-! ## Lemmas about the SMTP engine -/

lemma smtpGo_isValid_mxRecord (server : String) :
    ∀ (events : List ServerEvent) (step : Nat) (d : Bool),
      (smtpGo server events step d).isValid = true →
      (smtpGo server events step d).mxRecord = some server := by
  intro events
  induction events with
  | nil => intro step d h; simp [smtpGo] at h
  | cons ev rest ih =>
    intro step d h
    cases ev with
    | data raw =>
      rcases step with _ | _ | _ | _ | _ | step
      · by_cases hc : respCode raw = some 220
        · simpa [smtpGo, hc] using ih 1 d (by simpa [smtpGo, hc] using h)
        · simp [smtpGo, hc] at h
      · by_cases hc : respCode raw = some 250
        · simpa [smtpGo, hc] using ih 2 d (by simpa [smtpGo, hc] using h)
        · simp [smtpGo, hc] at h
      · by_cases hc : respCode raw = some 250
        · simpa [smtpGo, hc] using ih 3 d (by simpa [smtpGo, hc] using h)
        · simp [smtpGo, hc] at h
      · simpa [smtpGo] using ih 4 (respCode raw = some 250) (by simpa [smtpGo] using h)
      · simp [smtpGo]
      · simpa [smtpGo] using ih (step + 5) d (by simpa [smtpGo] using h)
    | socketError msg => simp [smtpGo] at h
    | close =>
      by_cases hs : step < 4
      · simp [smtpGo, hs] at h
      · simpa [smtpGo, hs] using ih step d (by simpa [smtpGo, hs] using h)

lemma testSmtpConnection_isValid_mxRecord (server email : String)
    (events : List ServerEvent)
    (h : (testSmtpConnection server email events).isValid = true) :
    (testSmtpConnection server email events).mxRecord = some server :=
  smtpGo_isValid_mxRecord server events 0 false h

lemma smtpTryServers_all_fail (email : String) (net : String → List ServerEvent) :
    ∀ (servers : List String) (acc : SmtpValidationResult),
      (∀ s ∈ servers, (testSmtpConnection s email (net s)).isValid = false) →
      smtpTryServers email net servers acc =
        { acc with warnings := acc.warnings ++
            servers.map (fun s =>
              jsOrString (testSmtpConnection s email (net s)).error
                "Unable to verify mailbox via SMTP") } := by
  intro servers
  induction servers with
  | nil => intro acc _; simp [smtpTryServers]
  | cons server rest ih =>
    intro acc h
    have hs : (testSmtpConnection server email (net server)).isValid = false :=
      h server (List.mem_cons_self _ _)
    rw [smtpTryServers, if_neg (by simp [hs])]
    rw [ih _ (fun s hmem => h s (List.mem_cons_of_mem _ hmem))]
    simp

lemma smtpTryServers_mxRecord (email : String) (net : String → List ServerEvent) :
    ∀ (servers : List String) (acc : SmtpValidationResult),
      acc.mxRecord = none →
      (smtpTryServers email net servers acc).mxRecord =
        servers.find? (fun s => (testSmtpConnection s email (net s)).isValid) := by
  intro servers
  induction servers with
  | nil => intro acc hacc; simp [smtpTryServers, hacc]
  | cons server rest ih =>
    intro acc hacc
    by_cases hs : (testSmtpConnection server email (net server)).isValid = true
    · rw [smtpTryServers, if_pos (by simp [hs])]
      simp [List.find?, hs, testSmtpConnection_isValid_mxRecord server email _ hs]
    · have hs' : (testSmtpConnection server email (net server)).isValid = false := by
        simpa using hs
      rw [smtpTryServers, if_neg (by simp [hs'])]
      rw [ih _ (by simp [hacc])]
      simp [List.find?, hs']

/-! ## Claim theorems: SMTP engine -/

/-- Claim C1 (code bug): a dialogue that completes with a non-250 RCPT
response must yield `isMailboxValid = false`, but the code yields `true`.
`testSmtpConnection` does record `isDeliverable = (code == 250) = false`
at the RCPT stage, yet `validateEmail` (`smtp.ts:97`) copies
`validationResult.isValid` — `true` for any completed dialogue — into
`isMailboxValid` and discards `isDeliverable`. -/
theorem smtp_rcpt_rejected_still_reports_mailbox_valid :
    (testSmtpConnection "example.com" "user@example.com" rcptRejectScript).isDeliverable
        = false ∧
    (testSmtpConnection "example.com" "user@example.com" rcptRejectScript).isValid
        = true ∧
    (validateEmail "user@example.com" none (fun _ => rcptRejectScript)).isValid
        = true ∧
    (validateEmail "user@example.com" none (fun _ => rcptRejectScript)).isMailboxValid
        = true := by
  decide

/-- Claim C3: (1) a server that greets with 220 and then answers HELO
with a non-250 code makes that attempt fail, `isValid = false`, with the
failure message `"HELO failed: <response>"` recorded in the attempt's
`error` field; (2) when every candidate server's dialogue fails, the
aggregated result has `isValid = false`, `isMailboxValid = false`, and
exactly one warning per failed server. -/
theorem smtp_helo_failure_and_failed_aggregate :
    (∀ (server email greeting helo : String) (rest : List ServerEvent),
        respCode greeting = some 220 →
        respCode helo ≠ some 250 →
        (testSmtpConnection server email
            (.data greeting :: .data helo :: rest)).isValid = false ∧
        (testSmtpConnection server email
            (.data greeting :: .data helo :: rest)).error =
          some ("HELO failed: " ++ jsTrim helo)) ∧
    (∀ (email : String) (mxRecords : Option (List MxRecord))
        (net : String → List ServerEvent),
        jsFalsyStr (splitLocal email) = false →
        jsFalsyStr (splitDomain email) = false →
        (∀ s ∈ serversOf mxRecords ((splitDomain email).getD ""),
            (testSmtpConnection s email (net s)).isValid = false) →
        (validateEmail email mxRecords net).isValid = false ∧
        (validateEmail email mxRecords net).isMailboxValid = false ∧
        (validateEmail email mxRecords net).warnings.length =
          (serversOf mxRecords ((splitDomain email).getD "")).length) := by
  constructor
  · intro server email greeting helo rest hg hh
    constructor <;> simp [testSmtpConnection, smtpGo, hg, hh]
  · intro email mxRecords net h1 h2 hall
    rw [validateEmail, if_neg (by simp [h1, h2])]
    rw [smtpTryServers_all_fail email net _ _ hall]
    simp [smtpBaseResult]

/-- Witness for `smtp_helo_failure_and_failed_aggregate` at a concrete
server, email and network. -/
theorem smtp_helo_failure_and_failed_aggregate_witness :
    ((testSmtpConnection "mx1.example.com" "u@d.com"
        [.data "220 hi", .data "550 nope"]).isValid = false ∧
     (testSmtpConnection "mx1.example.com" "u@d.com"
        [.data "220 hi", .data "550 nope"]).error =
       some ("HELO failed: " ++ jsTrim "550 nope")) ∧
    ((validateEmail "u@d.com" none
        (fun _ => [.data "220 hi", .data "550 nope"])).isValid = false ∧
     (validateEmail "u@d.com" none
        (fun _ => [.data "220 hi", .data "550 nope"])).isMailboxValid = false ∧
     (validateEmail "u@d.com" none
        (fun _ => [.data "220 hi", .data "550 nope"])).warnings.length =
       (serversOf none ((splitDomain "u@d.com").getD "")).length) :=
  ⟨smtp_helo_failure_and_failed_aggregate.1 "mx1.example.com" "u@d.com"
      "220 hi" "550 nope" [] (by decide) (by decide),
   smtp_helo_failure_and_failed_aggregate.2 "u@d.com" none
      (fun _ => [.data "220 hi", .data "550 nope"])
      (by decide) (by decide) (by decide)⟩

/-- Claim C8, amended: candidate servers are attempted in the order of
the supplied `mxRecords` list — the code does not re-sort them (the DNS
engine happens to hand over an ascending list); when `mxRecords` is
absent, the bare domain is the only candidate host.  The third conjunct
expresses the attempt order: the recorded `mxRecord` is the first
candidate, in list order, whose dialogue succeeds. -/
theorem smtp_servers_tried_in_supplied_order (email : String)
    (mxRecords : Option (List MxRecord)) (net : String → List ServerEvent)
    (h1 : jsFalsyStr (splitLocal email) = false)
    (h2 : jsFalsyStr (splitDomain email) = false) :
    (∀ l, mxRecords = some l →
        serversOf mxRecords ((splitDomain email).getD "") =
          l.map (fun mx => mx.exchange)) ∧
    (mxRecords = none →
        serversOf mxRecords ((splitDomain email).getD "") =
          [(splitDomain email).getD ""]) ∧
    (validateEmail email mxRecords net).mxRecord =
      (serversOf mxRecords ((splitDomain email).getD "")).find?
        (fun s => (testSmtpConnection s email (net s)).isValid) := by
  refine ⟨fun l hl => by simp [serversOf, hl], fun hn => by simp [serversOf, hn], ?_⟩
  rw [validateEmail, if_neg (by simp [h1, h2])]
  exact smtpTryServers_mxRecord email net _ _ rfl

/-- Witness for `smtp_servers_tried_in_supplied_order` at a concrete
input (a single supplied MX record, a network that answers nothing). -/
theorem smtp_servers_tried_in_supplied_order_witness :
    serversOf (some [⟨"a.example", 5⟩]) ((splitDomain "u@d.com").getD "") =
      ([⟨"a.example", 5⟩] : List MxRecord).map (fun mx => mx.exchange) ∧
    (validateEmail "u@d.com" (some [⟨"a.example", 5⟩])
        (fun _ => [])).mxRecord =
      (serversOf (some [⟨"a.example", 5⟩]) ((splitDomain "u@d.com").getD "")).find?
        (fun s => (testSmtpConnection s "u@d.com" ((fun _ => ([] : List ServerEvent)) s)).isValid) :=
  ⟨(smtp_servers_tried_in_supplied_order "u@d.com" (some [⟨"a.example", 5⟩])
      (fun _ => []) (by decide) (by decide)).1 _ rfl,
   (smtp_servers_tried_in_supplied_order "u@d.com" (some [⟨"a.example", 5⟩])
      (fun _ => []) (by decide) (by decide)).2.2⟩

/-- Counterexample to claim C8 as stated: with the supplied list
`[⟨slow, 20⟩, ⟨fast, 10⟩]` and every server accepting, the server
attempted (and recorded) first is the priority-20 one — ascending
priority order would have attempted and recorded the priority-10 server
first.  `validateEmail` uses the supplied order without sorting
(`smtp.ts:88`). -/
theorem smtp_servers_not_sorted_by_priority :
    (validateEmail "user@example.org"
        (some [⟨"slow.example.org", 20⟩, ⟨"fast.example.org", 10⟩])
        (fun _ => allOkScript)).mxRecord = some "slow.example.org" ∧
    (validateEmail "user@example.org"
        (some [⟨"slow.example.org", 20⟩, ⟨"fast.example.org", 10⟩])
        (fun _ => allOkScript)).mxRecord ≠ some "fast.example.org" := by
  decide

/-- Claim C10: an input that does not split into a non-empty local part
and a non-empty domain around `"@"` makes `validateEmail` return
immediately — for every `mxRecords` and every network — with the fresh
result carrying only `errors = ["Invalid email format"]`; in particular
`isValid = false`, `isMailboxValid = false`, `domain = ""`,
`responseCode = none`, and no server is contacted (the right-hand side
does not depend on `net`). -/
theorem smtp_invalid_format_short_circuit (email : String)
    (h : jsFalsyStr (splitLocal email) = true ∨ jsFalsyStr (splitDomain email) = true) :
    ∀ (mxRecords : Option (List MxRecord)) (net : String → List ServerEvent),
      validateEmail email mxRecords net =
        { email := email, domain := "", isValid := false, isMailboxValid := false,
          mxRecord := none, responseCode := none, responseMessage := none,
          errors := ["Invalid email format"], warnings := [] } := by
  intro mxRecords net
  rw [validateEmail, if_pos (by rcases h with h | h <;> simp [h])]
  rfl

/-- Witness for `smtp_invalid_format_short_circuit`: a string without
`"@"`. -/
theorem smtp_invalid_format_short_circuit_witness :
    validateEmail "not-an-email" none (fun _ => allOkScript) =
      { email := "not-an-email", domain := "", isValid := false,
        isMailboxValid := false, mxRecord := none, responseCode := none,
        responseMessage := none, errors := ["Invalid email format"],
        warnings := [] } :=
  smtp_invalid_format_short_circuit "not-an-email" (Or.inr (by decide)) none
    (fun _ => allOkScript)

/-! ## Claim theorem: concurrency gate -/

/-- Claim C2 (code bug): after the trace above the system is quiescent —
no task is executing, so no future event of these three submissions can
ever shift the queue again — yet task 3 is still queued and its promise
never settled.  The queued closure started by the drain
(`dns-resolver:384-391`) neither re-increments `activeRequests` nor
shifts the next request when it finishes, so only the directly admitted
task's `finally` ever drains the queue: with `maxConcurrent = 1` and 3
tasks, the third is stranded, contradicting "all N submitted tasks
eventually complete". -/
theorem gate_third_task_never_completes :
    gateStuckFinal.runningAdmitted = [] ∧
    gateStuckFinal.runningDequeued = [] ∧
    gateStuckFinal.active = 0 ∧
    gateStuckFinal.queue = [3] ∧
    gateStuckFinal.settled = [1, 2] := by
  decide

/-! ## Lemmas about the association-list map -/

lemma mapGet_nil {α : Type} (kq : String) :
    mapGet ([] : List (String × α)) kq = none := by
  simp [mapGet]

lemma mapGet_cons {α : Type} (x : String × α) (m : List (String × α))
    (kq : String) :
    mapGet (x :: m) kq = if x.1 = kq then some x.2 else mapGet m kq := by
  by_cases h : x.1 = kq
  · rw [if_pos h]
    unfold mapGet
    rw [List.find?_cons_of_pos _ (by simpa using h)]
    rfl
  · rw [if_neg h]
    unfold mapGet
    rw [List.find?_cons_of_neg _ (by simpa using h)]

lemma mapGet_append_single_self {α : Type} (k : String) (v : α) :
    ∀ m : List (String × α), (∀ p ∈ m, p.1 ≠ k) →
      mapGet (m ++ [(k, v)]) k = some v := by
  intro m
  induction m with
  | nil => intro _; simp [mapGet_cons, mapGet_nil]
  | cons p m ih =>
    intro h
    rw [List.cons_append, mapGet_cons,
        if_neg (h p (List.mem_cons_self _ _)),
        ih (fun q hq => h q (List.mem_cons_of_mem _ hq))]

lemma mapGet_append_single_ne {α : Type} (k kq : String) (v : α)
    (hne : kq ≠ k) :
    ∀ m : List (String × α), mapGet (m ++ [(k, v)]) kq = mapGet m kq := by
  intro m
  induction m with
  | nil =>
    rw [List.nil_append, mapGet_cons, if_neg (fun h => hne h.symm), mapGet_nil]
  | cons p m ih =>
    rw [List.cons_append, mapGet_cons, mapGet_cons, ih]

lemma mapGet_replace_self {α : Type} (k : String) (v : α) :
    ∀ m : List (String × α), m.any (fun p => p.1 == k) = true →
      mapGet (m.map (fun p => if p.1 == k then (k, v) else p)) k = some v := by
  intro m
  induction m with
  | nil => intro h; simp at h
  | cons p m ih =>
    intro h
    by_cases hpk : p.1 = k
    · rw [List.map_cons, if_pos (by simpa using hpk), mapGet_cons, if_pos rfl]
    · have h' : m.any (fun p => p.1 == k) = true := by
        simpa [List.any_cons, hpk] using h
      rw [List.map_cons, if_neg (by simpa using hpk), mapGet_cons,
          if_neg hpk, ih h']

lemma mapGet_replace_ne {α : Type} (k kq : String) (v : α) (hne : kq ≠ k) :
    ∀ m : List (String × α),
      mapGet (m.map (fun p => if p.1 == k then (k, v) else p)) kq =
        mapGet m kq := by
  intro m
  induction m with
  | nil => simp [mapGet_nil]
  | cons p m ih =>
    by_cases hpk : p.1 = k
    · rw [List.map_cons, if_pos (by simpa using hpk), mapGet_cons,
          if_neg (fun h => hne (h.symm)), mapGet_cons,
          if_neg (fun h => hne (hpk ▸ h).symm), ih]
    · rw [List.map_cons, if_neg (by simpa using hpk), mapGet_cons,
          mapGet_cons, ih]

lemma mapGet_mapSet_self {α : Type} (k : String) (v : α)
    (m : List (String × α)) : mapGet (mapSet m k v) k = some v := by
  unfold mapSet
  by_cases hmem : m.any (fun p => p.1 == k) = true
  · rw [if_pos hmem]
    exact mapGet_replace_self k v m hmem
  · rw [if_neg hmem]
    refine mapGet_append_single_self k v m ?_
    intro p hp hc
    exact hmem (List.any_eq_true.2 ⟨p, hp, by simpa using hc⟩)

lemma mapGet_mapSet_ne {α : Type} (k kq : String) (v : α) (hne : kq ≠ k)
    (m : List (String × α)) : mapGet (mapSet m k v) kq = mapGet m kq := by
  unfold mapSet
  by_cases hmem : m.any (fun p => p.1 == k) = true
  · rw [if_pos hmem]
    exact mapGet_replace_ne k kq v hne m
  · rw [if_neg hmem]
    exact mapGet_append_single_ne k kq v hne m

/-! ## Claim theorem: DNS cache TTL -/

/-- Claim C9: a value stored at instant `t` with TTL `T` is returned by a
read at instant `tNow` with `tNow - t < T` and is absent for a read with
`tNow - t > T`.  (`T ≠ 0` keeps the stored TTL at `T`: a zero TTL is
falsy in `ttl || this.config.cacheTtl`.  For `tNow < t` the JS
subtraction is negative, hence below `ttl`, exactly as the truncated Nat
subtraction behaves.) -/
theorem dns_cache_ttl_fresh_and_stale {α : Type} (cfg : DnsResolverCfg)
    (cache : List (String × CacheEntry α)) (key : String) (v : α)
    (t T tNow : Nat) (hT : T ≠ 0) :
    (tNow - t < T →
      (getCachedResult (setCachedResult cfg cache key v t (some T)) key tNow).1
        = some v) ∧
    (T < tNow - t →
      (getCachedResult (setCachedResult cfg cache key v t (some T)) key tNow).1
        = none) := by
  have hset : mapGet (setCachedResult cfg cache key v t (some T)) key =
      some ⟨v, t, T⟩ := by
    unfold setCachedResult
    rw [mapGet_mapSet_self]
    simp [jsOrNat, hT]
  constructor
  · intro hfresh
    simp [getCachedResult, hset, hfresh]
  · intro hstale
    have : ¬(tNow - t < T) := by omega
    simp [getCachedResult, hset, this]

/-- Witness for `dns_cache_ttl_fresh_and_stale`: `ttl = 100`, a read 50
later sees the value, a read 150 later sees it absent. -/
theorem dns_cache_ttl_fresh_and_stale_witness :
    (getCachedResult
        (setCachedResult ⟨3, 100, 300000, false, false, false⟩ []
          "mx:example.com" (7 : Nat) 0 (some 100)) "mx:example.com" 50).1
      = some 7 ∧
    (getCachedResult
        (setCachedResult ⟨3, 100, 300000, false, false, false⟩ []
          "mx:example.com" (7 : Nat) 0 (some 100)) "mx:example.com" 150).1
      = none :=
  ⟨(dns_cache_ttl_fresh_and_stale ⟨3, 100, 300000, false, false, false⟩ []
      "mx:example.com" 7 0 100 50 (by decide)).1 (by decide),
   (dns_cache_ttl_fresh_and_stale ⟨3, 100, 300000, false, false, false⟩ []
      "mx:example.com" 7 0 100 150 (by decide)).2 (by decide)⟩

/-! ## Claim theorems: DNS validation -/

/-- Claim C4: in `validateDomain`, mere absence of MX/SPF/DMARC records
only ever appends to `warnings` — the `errors` array stays empty on every
successful resolution — while an infrastructure failure (the resolver
throwing) is the one path that appends to `errors`. -/
theorem dns_absence_warns_never_errors (cfg : DnsResolverCfg) (domain : String)
    (connOracle : List MxRecord → Bool) (spfOracle dmarcOracle : Bool) :
    (∀ records : List MxRecord,
        (validateDomain cfg domain (.ok records) connOracle spfOracle
            dmarcOracle).errors = [] ∧
        (records = [] →
          "No MX records found" ∈
            (validateDomain cfg domain (.ok records) connOracle spfOracle
              dmarcOracle).warnings) ∧
        (cfg.checkSpfRecord = true → spfOracle = false →
          "No SPF record found" ∈
            (validateDomain cfg domain (.ok records) connOracle spfOracle
              dmarcOracle).warnings) ∧
        (cfg.checkDmarcRecord = true → dmarcOracle = false →
          "No DMARC record found" ∈
            (validateDomain cfg domain (.ok records) connOracle spfOracle
              dmarcOracle).warnings)) ∧
    (∀ e : String,
        (validateDomain cfg domain (.error e) connOracle spfOracle
            dmarcOracle).errors = ["DNS resolution failed: " ++ e]) := by
  constructor
  · intro records
    refine ⟨?_, ?_, ?_, ?_⟩
    · unfold validateDomain
      split_ifs <;> simp [dnsBaseResult] <;> split_ifs <;>
        simp [dnsBaseResult]
    · intro hrec
      subst hrec
      unfold validateDomain
      split_ifs <;> simp_all [dnsBaseResult]
    · intro hspf hspfo
      unfold validateDomain
      split_ifs <;> simp_all [dnsBaseResult]
    · intro hdmarc hdmo
      unfold validateDomain
      split_ifs <;> simp_all [dnsBaseResult]
  · intro e
    simp [validateDomain, dnsBaseResult]

/-- Witness for `dns_absence_warns_never_errors`: all checks enabled and
all signals absent on an existing domain without MX — warnings, never
errors — plus an unreachable resolver producing the single error. -/
theorem dns_absence_warns_never_errors_witness :
    ((validateDomain ⟨3, 100, 300000, true, true, true⟩ "example.com"
        (.ok []) (fun _ => false) false false).errors = [] ∧
     "No MX records found" ∈
       (validateDomain ⟨3, 100, 300000, true, true, true⟩ "example.com"
         (.ok []) (fun _ => false) false false).warnings ∧
     "No SPF record found" ∈
       (validateDomain ⟨3, 100, 300000, true, true, true⟩ "example.com"
         (.ok []) (fun _ => false) false false).warnings ∧
     "No DMARC record found" ∈
       (validateDomain ⟨3, 100, 300000, true, true, true⟩ "example.com"
         (.ok []) (fun _ => false) false false).warnings) ∧
    (validateDomain ⟨3, 100, 300000, true, true, true⟩ "example.com"
        (.error "queryMx ETIMEOUT") (fun _ => false) false false).errors =
      ["DNS resolution failed: " ++ "queryMx ETIMEOUT"] := by
  have h := dns_absence_warns_never_errors ⟨3, 100, 300000, true, true, true⟩
    "example.com" (fun _ => false) false false
  exact ⟨⟨(h.1 []).1, (h.1 []).2.1 rfl, (h.1 []).2.2.1 rfl rfl,
          (h.1 []).2.2.2 rfl rfl⟩, h.2 "queryMx ETIMEOUT"⟩

/-! ## Claim theorem: MX retry with backoff -/

lemma resolveMxGo_attempts_le (oracle : Nat → Except String (List MxRecord))
    (retries : Nat) :
    ∀ (remaining attempt : Nat) (lastErr : Option String),
      (resolveMxGo oracle retries remaining attempt lastErr).attempts ≤ remaining := by
  intro remaining
  induction remaining with
  | zero => intro attempt lastErr; simp [resolveMxGo]
  | succ n ih =>
    intro attempt lastErr
    unfold resolveMxGo
    cases oracle attempt with
    | ok records => simp
    | error e =>
      by_cases hlt : attempt < retries
      · simpa [hlt] using Nat.succ_le_succ (ih (attempt + 1) (some e))
      · simp [hlt]

lemma resolveMxGo_delays_get? (oracle : Nat → Except String (List MxRecord))
    (retries : Nat) :
    ∀ (remaining attempt : Nat) (lastErr : Option String) (i : Nat) (x : Nat),
      (resolveMxGo oracle retries remaining attempt lastErr).delays.get? i =
        some x →
      x = backoffDelay (attempt + i) := by
  intro remaining
  induction remaining with
  | zero => intro attempt lastErr i x h; simp [resolveMxGo] at h
  | succ n ih =>
    intro attempt lastErr i x h
    simp only [resolveMxGo] at h
    cases hor : oracle attempt with
    | ok records => rw [hor] at h; simp at h
    | error e =>
      rw [hor] at h
      by_cases hlt : attempt < retries
      · simp only [hlt, if_true] at h
        cases i with
        | zero =>
          simp only [List.get?] at h
          cases h
          simp
        | succ j =>
          simp only [List.get?] at h
          have hx := ih (attempt + 1) (some e) j x h
          have harg : attempt + 1 + j = attempt + (j + 1) := by omega
          rw [hx, harg]
      · simp [hlt] at h

/-- Claim C7: `resolveMxWithRetry` makes at most `retries` attempts; the
delay awaited after failed attempt number `a` (the `i`-th delay,
zero-based, follows attempt `i + 1`) is `min (1000 * 2 ^ i) 5000`
milliseconds, the delays occurring one after another in attempt order;
and when the retries are exhausted, `validateDomain` still returns a
result — `hasMx = false` with a single error entry — instead of
propagating the exception. -/
theorem dns_retry_backoff_and_exhaustion (cfg : DnsResolverCfg)
    (domain : String) (oracle : Nat → Except String (List MxRecord))
    (connOracle : List MxRecord → Bool) (spfOracle dmarcOracle : Bool) :
    (resolveMxWithRetry oracle cfg.retries).attempts ≤ cfg.retries ∧
    (∀ i (h : i < (resolveMxWithRetry oracle cfg.retries).delays.length),
      (resolveMxWithRetry oracle cfg.retries).delays.get ⟨i, h⟩ =
        min (1000 * 2 ^ i) 5000) ∧
    (∀ e : String,
      (resolveMxWithRetry oracle cfg.retries).outcome = .error e →
      (validateDomain cfg domain (resolveMxWithRetry oracle cfg.retries).outcome
          connOracle spfOracle dmarcOracle).hasMx = false ∧
      (validateDomain cfg domain (resolveMxWithRetry oracle cfg.retries).outcome
          connOracle spfOracle dmarcOracle).errors =
        ["DNS resolution failed: " ++ e]) := by
  refine ⟨resolveMxGo_attempts_le oracle cfg.retries cfg.retries 1 none, ?_, ?_⟩
  · intro i h
    have hg : (resolveMxWithRetry oracle cfg.retries).delays.get? i =
        some ((resolveMxWithRetry oracle cfg.retries).delays.get ⟨i, h⟩) :=
      List.get?_eq_get h
    have hx := resolveMxGo_delays_get? oracle cfg.retries cfg.retries 1 none i _ hg
    rw [hx, Nat.add_comm 1 i]
    simp [backoffDelay]
  · intro e he
    rw [he]
    simp [validateDomain, dnsBaseResult]

/-- Witness for `dns_retry_backoff_and_exhaustion`: every attempt times
out with `retries = 3`; the two sequential backoff delays are 1000 ms and
2000 ms and `validateDomain` absorbs the final error. -/
theorem dns_retry_backoff_and_exhaustion_witness :
    (resolveMxWithRetry (fun _ => .error "DNS timeout") 3).attempts ≤ 3 ∧
    (resolveMxWithRetry (fun _ => .error "DNS timeout") 3).delays.get
        ⟨0, by decide⟩ = min (1000 * 2 ^ 0) 5000 ∧
    (resolveMxWithRetry (fun _ => .error "DNS timeout") 3).delays.get
        ⟨1, by decide⟩ = min (1000 * 2 ^ 1) 5000 ∧
    (validateDomain ⟨3, 100, 300000, false, false, false⟩ "example.com"
        (resolveMxWithRetry (fun _ => .error "DNS timeout") 3).outcome
        (fun _ => false) false false).hasMx = false ∧
    (validateDomain ⟨3, 100, 300000, false, false, false⟩ "example.com"
        (resolveMxWithRetry (fun _ => .error "DNS timeout") 3).outcome
        (fun _ => false) false false).errors =
      ["DNS resolution failed: " ++ "DNS timeout"] := by
  have h := dns_retry_backoff_and_exhaustion ⟨3, 100, 300000, false, false, false⟩
    "example.com" (fun _ => .error "DNS timeout") (fun _ => false) false false
  exact ⟨h.1, h.2.1 0 (by decide), h.2.1 1 (by decide),
    (h.2.2 "DNS timeout" (by decide)).1, (h.2.2 "DNS timeout" (by decide)).2⟩

/-! ## Claim theorem: allowlist short-circuit -/

/-- Claim C5: on a cache miss, an email whose (normalized) domain is an
exact allowlist match makes `checkEmail` return right after the allowlist
check: `isAllowed = true`, `confidence = 100`, `matchType = exact`, and —
because the blacklist, disposable, pattern, DNS and SMTP stages are never
reached — `isDisposable = false`, `isBlacklisted = false`, no warnings,
and no `dnsValidation`/`smtpValidation` sub-results.  The right-hand side
mentions none of the later-stage collaborators, so the result is
independent of them. -/
theorem orchestrator_allowlist_short_circuit (env : CheckerEnv)
    (cfg : OrchestratorCfg) (cache : String → Option EmailValidationResult)
    (email : String)
    (hq : env.quickPattern (jsNormalize email) = true)
    (hc : cacheHitFor cfg cache (jsNormalize email) = none)
    (hf : validateEmailFormat env.formatRegex (jsNormalize email) = none)
    (ha : checkAllowlist env (parseEmail (jsNormalize email)).2 = true) :
    checkEmail env cfg cache email =
      { emptyResult with
          email := jsNormalize email
          isValid := true
          localPart := (parseEmail (jsNormalize email)).1
          domain := (parseEmail (jsNormalize email)).2
          isAllowed := true
          matchType := .exact
          confidence := 100 } := by
  rw [checkEmail]
  simp only [hq, if_true, hc]
  rw [performEmailCheck]
  simp only [hf, ha, if_true]

/-- Witness for `orchestrator_allowlist_short_circuit` on
`"USER@Good.com "` with allowlist `["good.com"]`. -/
theorem orchestrator_allowlist_short_circuit_witness :
    checkEmail testEnv testCfg (fun _ => none) "USER@Good.com " =
      { emptyResult with
          email := "user@good.com"
          isValid := true
          localPart := "user"
          domain := "good.com"
          isAllowed := true
          matchType := .exact
          confidence := 100 } :=
  (orchestrator_allowlist_short_circuit testEnv testCfg (fun _ => none)
      "USER@Good.com " (by decide) (by decide) (by decide) (by decide)).trans
    (by decide)

/-! ## Claim theorem: batch order preservation -/

lemma mapGet_writeFold {α : Type} (f : String → α) :
    ∀ (order : List String) (base : List (String × α)) (e : String),
      mapGet (order.foldl (fun m x => mapSet m x (f x)) base) e =
        if e ∈ order then some (f e) else mapGet base e := by
  intro order
  induction order with
  | nil => intro base e; simp
  | cons x xs ih =>
    intro base e
    rw [List.foldl_cons, ih]
    by_cases hmem : e ∈ xs
    · simp [hmem]
    · by_cases hex : e = x
      · subst hex
        simp [hmem, mapGet_mapSet_self]
      · simp [hmem, hex, mapGet_mapSet_ne _ _ _ hex]

lemma mapGet_hitFold (g : String → Option EmailValidationResult) :
    ∀ (l : List String) (base : List (String × EmailValidationResult))
      (e : String),
      mapGet (l.foldl
        (fun m x => match g x with | some r => mapSet m x r | none => m)
        base) e =
        if e ∈ l ∧ (g e).isSome then g e else mapGet base e := by
  intro l
  induction l with
  | nil => intro base e; simp
  | cons x xs ih =>
    intro base e
    rw [List.foldl_cons, ih]
    by_cases hex : e = x
    · subst hex
      cases hge : g e with
      | some r =>
        by_cases hmem : e ∈ xs
        · simp [hmem, hge]
        · simp [hmem, hge, mapGet_mapSet_self]
      | none =>
        simp [hge]
    · cases hgx : g x with
      | some r =>
        rw [mapGet_mapSet_ne _ _ _ hex]
        by_cases hmem : e ∈ xs
        · simp [hmem, hex]
        · simp [hmem, hex]
      | none =>
        by_cases hmem : e ∈ xs
        · simp [hmem, hex]
        · simp [hmem, hex]

lemma mem_jsDedupAux :
    ∀ (l acc : List String) (e : String),
      e ∈ l.foldl (fun acc x => if x ∈ acc then acc else acc ++ [x]) acc ↔
        e ∈ acc ∨ e ∈ l := by
  intro l
  induction l with
  | nil => intro acc e; simp
  | cons x xs ih =>
    intro acc e
    rw [List.foldl_cons]
    by_cases hx : x ∈ acc
    · rw [if_pos hx, ih]
      simp only [List.mem_cons]
      constructor
      · rintro (h | h)
        · exact Or.inl h
        · exact Or.inr (Or.inr h)
      · rintro (h | h | h)
        · exact Or.inl h
        · exact Or.inl (by rw [h]; exact hx)
        · exact Or.inr h
    · rw [if_neg hx, ih]
      simp only [List.mem_append, List.mem_cons, List.not_mem_nil, or_false]
      tauto

lemma mem_jsDedup (l : List String) (e : String) :
    e ∈ jsDedup l ↔ e ∈ l := by
  unfold jsDedup
  rw [mem_jsDedupAux]
  simp

lemma batch_pointwise (env : CheckerEnv) (cfg : OrchestratorCfg)
    (cache : String → Option EmailValidationResult) (emails : List String)
    (writeOrder : List String)
    (hperm : writeOrder.Perm (uncachedEmails cfg cache emails))
    (e : String) (he : e ∈ emails.map jsNormalize) :
    (mapGet (writeOrder.foldl
        (fun m x => mapSet m x (checkEmail env cfg cache x))
        (batchBaseMap cfg cache emails)) e).getD emptyResult =
      batchResolve env cfg cache e := by
  have hu : e ∈ jsDedup (emails.map jsNormalize) := (mem_jsDedup _ e).2 he
  have hwmem : e ∈ writeOrder ↔
      (e ∈ jsDedup (emails.map jsNormalize) ∧
        (cacheHitFor cfg cache e).isNone = true) := by
    rw [hperm.mem_iff]
    unfold uncachedEmails
    exact List.mem_filter
  rw [mapGet_writeFold]
  cases hhit : cacheHitFor cfg cache e with
  | some r =>
    have hnw : ¬e ∈ writeOrder := by
      rw [hwmem, hhit]
      simp
    rw [if_neg hnw]
    unfold batchBaseMap
    rw [mapGet_hitFold]
    rw [if_pos ⟨hu, by rw [hhit]; rfl⟩, hhit]
    simp [batchResolve, hhit]
  | none =>
    have hw : e ∈ writeOrder := by
      rw [hwmem, hhit]
      exact ⟨hu, rfl⟩
    rw [if_pos hw]
    simp [batchResolve, hhit]

/-- Claim C6: regardless of the completion order of the per-email work
(any permutation `writeOrder` of the uncached emails), `checkEmailsBatch`
returns exactly one result per input element, in input order — the list
equals the input list normalized and mapped through the per-email
resolution — so duplicate inputs (equal after lower-casing and trimming)
receive the same result. -/
theorem batch_preserves_order_and_duplicates (env : CheckerEnv)
    (cfg : OrchestratorCfg) (cache : String → Option EmailValidationResult)
    (emails : List String) (writeOrder : List String)
    (hperm : writeOrder.Perm (uncachedEmails cfg cache emails)) :
    checkEmailsBatch env cfg cache emails writeOrder =
      (emails.map jsNormalize).map (batchResolve env cfg cache) ∧
    (checkEmailsBatch env cfg cache emails writeOrder).length = emails.length ∧
    (∀ i j : Nat, i < emails.length → j < emails.length →
      jsNormalize (emails.getD i "") = jsNormalize (emails.getD j "") →
      (checkEmailsBatch env cfg cache emails writeOrder).getD i emptyResult =
        (checkEmailsBatch env cfg cache emails writeOrder).getD j emptyResult) := by
  have hmain : checkEmailsBatch env cfg cache emails writeOrder =
      (emails.map jsNormalize).map (batchResolve env cfg cache) := by
    unfold checkEmailsBatch
    refine List.map_congr_left ?_
    intro e he
    exact batch_pointwise env cfg cache emails writeOrder hperm e he
  have hout : ∀ i : Nat, i < emails.length →
      (checkEmailsBatch env cfg cache emails writeOrder).getD i emptyResult =
        batchResolve env cfg cache (jsNormalize (emails.getD i "")) := by
    intro i hi
    have hlen : i <
        (List.map (batchResolve env cfg cache ∘ jsNormalize) emails).length := by
      simpa using hi
    rw [hmain, List.map_map, List.getD_eq_getElem _ _ hlen, List.getElem_map,
        List.getD_eq_getElem _ _ hi]
    rfl
  refine ⟨hmain, by rw [hmain]; simp, ?_⟩
  intro i j hi hj heq
  rw [hout i hi, hout j hj, heq]

/-- Witness for `batch_preserves_order_and_duplicates`:
`["a@x.com", "b@y.com", "a@x.com"]` on an empty cache, with the chunk
completions landing in the canonical order; the first and third results
coincide. -/
theorem batch_preserves_order_and_duplicates_witness :
    checkEmailsBatch testEnv testCfg (fun _ => none)
        ["a@x.com", "b@y.com", "a@x.com"]
        (uncachedEmails testCfg (fun _ => none)
          ["a@x.com", "b@y.com", "a@x.com"]) =
      ((["a@x.com", "b@y.com", "a@x.com"].map jsNormalize).map
        (batchResolve testEnv testCfg (fun _ => none))) ∧
    (checkEmailsBatch testEnv testCfg (fun _ => none)
        ["a@x.com", "b@y.com", "a@x.com"]
        (uncachedEmails testCfg (fun _ => none)
          ["a@x.com", "b@y.com", "a@x.com"])).length = 3 ∧
    (checkEmailsBatch testEnv testCfg (fun _ => none)
        ["a@x.com", "b@y.com", "a@x.com"]
        (uncachedEmails testCfg (fun _ => none)
          ["a@x.com", "b@y.com", "a@x.com"])).getD 0 emptyResult =
      (checkEmailsBatch testEnv testCfg (fun _ => none)
        ["a@x.com", "b@y.com", "a@x.com"]
        (uncachedEmails testCfg (fun _ => none)
          ["a@x.com", "b@y.com", "a@x.com"])).getD 2 emptyResult := by
  have h := batch_preserves_order_and_duplicates testEnv testCfg (fun _ => none)
    ["a@x.com", "b@y.com", "a@x.com"]
    (uncachedEmails testCfg (fun _ => none) ["a@x.com", "b@y.com", "a@x.com"])
    (List.Perm.refl _)
  exact ⟨h.1, h.2.1, h.2.2 0 2 (by decide) (by decide) (by decide)⟩

end DisposableEmail
